import Mathlib

/-!
# Verification of the ACSAT operational-resilience layer

Shallow embedding of the job-lock manager (`app/JobLock.py`), the token-bucket
rate limiter (`app/RateLimiter.py`), the exponential-backoff retry handler
(`app/RetryHandler.py`) and the scheduler job wrappers (`app/Scheduler.py`,
`scheduler.py`, `Agents/CVECollectorAgent.py`).

Timestamps, token counts and backoff durations are modelled as rationals (the
Python code uses floats; all the formulas at issue are exact arithmetic, and
the idealization makes `time.sleep(w)` advance the clock by exactly `w` with
no processing delay between statements, which is the granularity at which the
specification speaks).
-/

/-- Result of a Python call that either returns normally or raises. -/
inductive Outcome (ε α : Type) where
  | ok (a : α)
  | raised (e : ε)
deriving DecidableEq, Repr

/-! ## JobLock.py — `JobLockManager`

`self.active_jobs` is a dict `job_name -> (lock, started_at)`; the
`threading.Lock` member of the pair is never consulted, so the table is
modelled as a map from names to the acquisition timestamp.  All operations
run under `self.lock`, so each call is one atomic step on the table. -/

def LockTable : Type := String → Option ℚ

/-- `JobLockManager.acquire_lock` (JobLock.py lines 27-63).
If the name is present: `elapsed = now - started_at`; when
`elapsed > timeout_seconds` the stale entry is deleted and control falls
through to the insertion (forced takeover, returns True); otherwise it
returns False with no change.  If the name is absent, a fresh entry with the
current timestamp is inserted and it returns True. -/
def acquire_lock (st : LockTable) (job_name : String) (timeout_seconds now : ℚ) :
    Bool × LockTable :=
  match st job_name with
  | some started_at =>
      if now - started_at > timeout_seconds then
        (true, fun n => if n = job_name then some now else st n)
      else
        (false, st)
  | none => (true, fun n => if n = job_name then some now else st n)

/-- `JobLockManager.release_lock` (JobLock.py lines 65-70): delete the entry
if present; deleting an absent entry is a no-op, so the result is the same
pointwise update either way. -/
def release_lock (st : LockTable) (job_name : String) : LockTable :=
  fun n => if n = job_name then none else st n

/-- A sequence of `acquire_lock` calls on one job name at the given
timestamps; returns the final table and the list of results. -/
def acquireSeq (st : LockTable) (job_name : String) (timeout : ℚ) :
    List ℚ → LockTable × List Bool
  | [] => (st, [])
  | t :: ts =>
      let r := acquire_lock st job_name timeout t
      let rest := acquireSeq r.2 job_name timeout ts
      (rest.1, r.1 :: rest.2)

/-- Result of running a body inside `JobLockContext`. -/
inductive CtxResult (ε α : Type) where
  | ok (a : α)
  | bodyRaised (e : ε)
  | alreadyRunning
deriving DecidableEq, Repr

/-- `JobLockContext` (JobLock.py lines 98-141): `__enter__` calls
`acquire_lock`; on denial it raises `RuntimeError("... already running")`
before the body runs (so `__exit__` is not invoked and the table is whatever
the denied acquire left).  On success the body runs and `__exit__` calls
`release_lock` on every exit path, returning `False` so a body exception is
not suppressed. -/
def JobLockContext_run (st : LockTable) (job_name : String) (timeout now : ℚ)
    (body : Outcome ε α) : LockTable × CtxResult ε α :=
  let acq := acquire_lock st job_name timeout now
  if acq.1 then
    match body with
    | Outcome.ok a => (release_lock acq.2 job_name, CtxResult.ok a)
    | Outcome.raised e => (release_lock acq.2 job_name, CtxResult.bodyRaised e)
  else
    (acq.2, CtxResult.alreadyRunning)

/-! ## RateLimiter.py — `RateLimiter` -/

/-- Mutable fields of one `RateLimiter` instance
(`tokens`, `max_tokens`, `last_refill`). -/
structure LimiterState where
  tokens : ℚ
  max_tokens : ℚ
  last_refill : ℚ
deriving DecidableEq, Repr

/-- `RateLimiter._wait_for_token` (RateLimiter.py lines 67-87): refill
`tokens = min(max_tokens, tokens + elapsed * refill_rate)` with
`refill_rate = max_tokens / 60`, set `last_refill` to now; if the refilled
count is below 1, sleep `(1 - tokens) / refill_rate` and set tokens to 0.
Returns (waited, new state); under the ideal clock the returned `waited`
equals the sleep duration (0 when no sleep happened). -/
def wait_for_token (s : LimiterState) (now : ℚ) : ℚ × LimiterState :=
  let elapsed := now - s.last_refill
  let refill_rate := s.max_tokens / 60
  let tokens := min s.max_tokens (s.tokens + elapsed * refill_rate)
  if tokens < 1 then
    let wait_time := (1 - tokens) / refill_rate
    (wait_time, ⟨0, s.max_tokens, now⟩)
  else
    (0, ⟨tokens, s.max_tokens, now⟩)

/-- `RateLimiter.wait_if_needed` (RateLimiter.py lines 48-65): call
`_wait_for_token`, decrement `tokens` by 1, then the minute-boundary check:
if `time.time() - last_refill >= 60` (the clock after any sleep is
`now + waited`), reset `tokens` to `max_tokens` and `last_refill` to the
current time. -/
def wait_if_needed (s : LimiterState) (now : ℚ) : ℚ × LimiterState :=
  let ws := wait_for_token s now
  let waited := ws.1
  let s2 : LimiterState := ⟨ws.2.tokens - 1, ws.2.max_tokens, ws.2.last_refill⟩
  let now2 := now + waited
  if 60 ≤ now2 - s2.last_refill then
    (waited, ⟨s2.max_tokens, s2.max_tokens, now2⟩)
  else
    (waited, s2)

/-- Variant of `wait_if_needed` with the minute-boundary reset dropped,
written to the spec's words: "implementers should collapse this into the
single continuous refill formula above; the integer reset is redundant and
may be dropped".  Used only to compare against `wait_if_needed`. -/
def wait_if_needed_noReset (s : LimiterState) (now : ℚ) : ℚ × LimiterState :=
  let ws := wait_for_token s now
  (ws.1, ⟨ws.2.tokens - 1, ws.2.max_tokens, ws.2.last_refill⟩)

/-- A sequence of `wait_if_needed` calls at the given timestamps; returns the
list of waits and the final state. -/
def runCalls : LimiterState → List ℚ → List ℚ × LimiterState
  | s, [] => ([], s)
  | s, t :: ts =>
      let r := wait_if_needed s t
      let rest := runCalls r.2 ts
      (r.1 :: rest.1, rest.2)

/-- Same sequence through the reset-free variant. -/
def runCallsNoReset : LimiterState → List ℚ → List ℚ × LimiterState
  | s, [] => ([], s)
  | s, t :: ts =>
      let r := wait_if_needed_noReset s t
      let rest := runCallsNoReset r.2 ts
      (r.1 :: rest.1, rest.2)

/-- Call timestamps are admissible when each call happens no earlier than the
limiter's `last_refill` at that point (the wall clock does not run
backwards). -/
def timesOk (lr : ℚ) : List ℚ → Prop
  | [] => True
  | t :: ts => lr ≤ t ∧ timesOk t ts

/-! ## RetryHandler.py

`retry_with_backoff` resolves its optional arguments against `RETRY_CONFIG`
(whose concrete values live in `Database/DatabaseConfig.py`, outside the
embedded sources, so the defaults stay abstract here) and then runs the loop
`for attempt in range(1, max_retries + 1)`.  The operation is modelled as a
function from the attempt number to a result, and `random.random()` as a
stream of rationals indexed by the attempt at which it is drawn. -/

/-- The five retry parameters after defaulting. -/
structure RetryConfig where
  max_retries : ℕ
  initial_backoff : ℚ
  max_backoff : ℚ
  backoff_multiplier : ℚ
  jitter : Bool
deriving DecidableEq, Repr

/-- One backoff computation (RetryHandler.py lines 77-84):
`backoff = min(initial_backoff * backoff_multiplier ** (attempt - 1), max_backoff)`,
then, when jitter is on, `backoff = backoff * (0.5 + random.random())`. -/
def backoff_step (cfg : RetryConfig) (attempt : ℕ) (r : ℚ) : ℚ :=
  let backoff := min (cfg.initial_backoff * cfg.backoff_multiplier ^ (attempt - 1))
      cfg.max_backoff
  if cfg.jitter then backoff * (1 / 2 + r) else backoff

/-- What one run of the retry loop did: the outcome (`Except.error none` is
Python's `raise last_exception` with `last_exception = None`, the case where
the loop body never ran), the number of times the operation was invoked, and
the list of `time.sleep` durations. -/
structure RetryTrace (ε α : Type) where
  result : Except (Option ε) α
  calls : ℕ
  sleeps : List ℚ
deriving Repr

/-- The retry loop of `retry_with_backoff.decorator.wrapper`
(RetryHandler.py lines 57-99), as a recursion on the remaining attempts of
`range(1, max_retries + 1)`: invoke the operation at the current attempt;
return its result on success; on failure sleep `backoff_step` and continue
when further attempts remain (`attempt < max_retries`), else re-raise the
last exception.  `RetryableOperation.execute` (lines 138-171) runs the same
loop with `RETRY_CONFIG`-derived parameters. -/
def retryAux (cfg : RetryConfig) (op : ℕ → Except ε α) (rand : ℕ → ℚ) :
    ℕ → ℕ → RetryTrace ε α
  | _, 0 => ⟨Except.error none, 0, []⟩
  | attempt, Nat.succ remaining =>
      match op attempt with
      | Except.ok v => ⟨Except.ok v, 1, []⟩
      | Except.error e =>
          match remaining with
          | 0 => ⟨Except.error (some e), 1, []⟩
          | Nat.succ r =>
              let rest := retryAux cfg op rand (attempt + 1) (Nat.succ r)
              ⟨rest.result, rest.calls + 1,
               backoff_step cfg attempt (rand attempt) :: rest.sleeps⟩

/-- Whole `retry_with_backoff`-wrapped call: attempts start at 1 and at most
`cfg.max_retries` of them run. -/
def retry_with_backoff (cfg : RetryConfig) (op : ℕ → Except ε α) (rand : ℕ → ℚ) :
    RetryTrace ε α :=
  retryAux cfg op rand 1 cfg.max_retries

/-! ### Argument defaulting (RetryHandler.py lines 49-54)

`max_retries = max_retries or RETRY_CONFIG['max_retries']` and the three
other numeric parameters use Python `or`, under which both `None` and `0`
select the default; `jitter = jitter if jitter is not None else ...` keeps
an explicit `False`. -/

/-- Python `arg or default` for an `Optional[int]` argument. -/
def orDefaultNat (arg : Option ℕ) (d : ℕ) : ℕ :=
  match arg with
  | none => d
  | some v => if v = 0 then d else v

/-- Python `arg or default` for an `Optional` numeric argument. -/
def orDefaultRat (arg : Option ℚ) (d : ℚ) : ℚ :=
  match arg with
  | none => d
  | some v => if v = 0 then d else v

/-- `jitter if jitter is not None else RETRY_CONFIG['jitter']`. -/
def jitterDefault (arg : Option Bool) (d : Bool) : Bool :=
  match arg with
  | none => d
  | some b => b

/-- The arguments as passed to `retry_with_backoff` (each `None` when the
caller omitted it). -/
structure RetryArgs where
  max_retries : Option ℕ
  initial_backoff : Option ℚ
  max_backoff : Option ℚ
  backoff_multiplier : Option ℚ
  jitter : Option Bool
deriving DecidableEq, Repr

/-- The defaulting block at RetryHandler.py lines 49-54, resolving the
passed arguments against the `RETRY_CONFIG` defaults. -/
def resolveRetryArgs (args : RetryArgs) (d : RetryConfig) : RetryConfig :=
  ⟨orDefaultNat args.max_retries d.max_retries,
   orDefaultRat args.initial_backoff d.initial_backoff,
   orDefaultRat args.max_backoff d.max_backoff,
   orDefaultRat args.backoff_multiplier d.backoff_multiplier,
   jitterDefault args.jitter d.jitter⟩

/-! ## Scheduler wrappers

`AgentScheduler._run_cve_agent` (app/Scheduler.py lines 61-71) and
`TaskScheduler._run_cve_agent` (scheduler.py lines 97-107) have the same
shape: open a session, `try` the agent's `run`, `except Exception` log the
error, `finally` close the session; nothing is re-raised and no run-record
is touched in the wrapper itself. -/

/-- Observable effects of one pass through the scheduler's per-job wrapper. -/
structure WrapperLog where
  logged_error : Bool
  db_closed : Bool
  propagated : Bool
  wrote_failed_run_record : Bool
deriving DecidableEq, Repr

/-- The wrapper body, as a function of what the wrapped `run` call did.  The
`except` branch only logs (`logger.error`), the `finally` branch closes the
session, no exception leaves the wrapper and the wrapper never writes a
run-record (the source's `try`/`except`/`finally` contains no database
write). -/
def run_cve_agent (run_result : Outcome ε α) : WrapperLog :=
  match run_result with
  | Outcome.ok _ => ⟨false, true, false, false⟩
  | Outcome.raised _ => ⟨true, true, false, false⟩

/-- The fields of the `AgentRun` record that `CVECollectorAgent.run`
writes. -/
structure AgentRunRecord where
  status : String
  error_message : Option String
deriving DecidableEq, Repr

/-- `CVECollectorAgent.run` (CVECollectorAgent.py lines 105-152), as a
function of what its collection body (`_fetch_nvd_feed` and the success-path
commits) did: on success the run-record is marked `success` and a success
dict is returned; on an exception the record is marked `failed` with the
error message and a failure dict is returned — `run` returns normally in
both cases. -/
def CVECollectorAgent_run (body : Outcome String α) :
    AgentRunRecord × Outcome String (Option α) :=
  match body with
  | Outcome.ok a => (⟨"success", none⟩, Outcome.ok (some a))
  | Outcome.raised e => (⟨"failed", some e⟩, Outcome.ok none)

/-- The dispatch loop firing a batch of due jobs: each trigger runs the
wrapper on its job's outcome. -/
def dispatchAll (bodies : List (Outcome ε α)) : List WrapperLog :=
  bodies.map run_cve_agent
/-- In the blocking branch (`tokens < 1` after refill), `_wait_for_token`
returns the computed wait and zeroes the token count. -/
theorem wait_for_token_block (s : LimiterState) (now : ℚ)
    (h : min s.max_tokens (s.tokens + (now - s.last_refill) * (s.max_tokens / 60)) < 1) :
    wait_for_token s now =
      ((1 - min s.max_tokens (s.tokens + (now - s.last_refill) * (s.max_tokens / 60)))
          / (s.max_tokens / 60),
       ⟨0, s.max_tokens, now⟩) := by
  simp only [wait_for_token]
  rw [if_pos h]

/-- In the non-blocking branch, `_wait_for_token` waits 0 and keeps the
refilled token count. -/
theorem wait_for_token_pass (s : LimiterState) (now : ℚ)
    (h : ¬ min s.max_tokens (s.tokens + (now - s.last_refill) * (s.max_tokens / 60)) < 1) :
    wait_for_token s now =
      (0, ⟨min s.max_tokens (s.tokens + (now - s.last_refill) * (s.max_tokens / 60)),
          s.max_tokens, now⟩) := by
  simp only [wait_for_token]
  rw [if_neg h]

/-- `_wait_for_token` always stamps `last_refill` with the call time. -/
theorem wait_for_token_last_refill (s : LimiterState) (now : ℚ) :
    (wait_for_token s now).2.last_refill = now := by
  simp only [wait_for_token]
  split <;> rfl

/-- `_wait_for_token` never changes `max_tokens`. -/
theorem wait_for_token_max (s : LimiterState) (now : ℚ) :
    (wait_for_token s now).2.max_tokens = s.max_tokens := by
  simp only [wait_for_token]
  split <;> rfl

/-- `wait_if_needed` in terms of `_wait_for_token`: since `_wait_for_token`
sets `last_refill := now`, the minute-boundary check compares the slept
duration itself against 60. -/
theorem wait_if_needed_eq_cases (s : LimiterState) (now : ℚ) :
    wait_if_needed s now =
      if 60 ≤ (wait_for_token s now).1 then
        ((wait_for_token s now).1,
         ⟨s.max_tokens, s.max_tokens, now + (wait_for_token s now).1⟩)
      else
        ((wait_for_token s now).1,
         ⟨(wait_for_token s now).2.tokens - 1, s.max_tokens,
          (wait_for_token s now).2.last_refill⟩) := by
  simp only [wait_if_needed, wait_for_token_last_refill, wait_for_token_max,
    add_sub_cancel_left]

/-- The wait reported by `wait_if_needed` is exactly the one computed by
`_wait_for_token`. -/
theorem wait_if_needed_fst (s : LimiterState) (now : ℚ) :
    (wait_if_needed s now).1 = (wait_for_token s now).1 := by
  rw [wait_if_needed_eq_cases]
  split <;> rfl

/-- After the decrement, the reset-free limiter's token count is at least
-1 from any starting state. -/
theorem wait_if_needed_noReset_tokens_lb (s : LimiterState) (now : ℚ) :
    -1 ≤ (wait_if_needed_noReset s now).2.tokens := by
  unfold wait_if_needed_noReset
  by_cases hb : min s.max_tokens (s.tokens + (now - s.last_refill) * (s.max_tokens / 60)) < 1
  · rw [wait_for_token_block s now hb]
    norm_num
  · rw [wait_for_token_pass s now hb]
    push_neg at hb
    simp only
    linarith

/-- The reset-free limiter never changes `max_tokens`. -/
theorem wait_if_needed_noReset_max (s : LimiterState) (now : ℚ) :
    (wait_if_needed_noReset s now).2.max_tokens = s.max_tokens := by
  unfold wait_if_needed_noReset
  rw [wait_for_token_max]

/-- The reset-free limiter always leaves `last_refill = now`. -/
theorem wait_if_needed_noReset_last_refill (s : LimiterState) (now : ℚ) :
    (wait_if_needed_noReset s now).2.last_refill = now := by
  unfold wait_if_needed_noReset
  rw [wait_for_token_last_refill]

/-- With `max_tokens > 2`, a non-depleted-by-more-than-one bucket and a
forward clock, every computed wait is under 60 seconds, so the
minute-boundary reset cannot fire. -/
theorem waited_lt_60 (s : LimiterState) (now : ℚ)
    (hmax : 2 < s.max_tokens) (htok : -1 ≤ s.tokens) (hlr : s.last_refill ≤ now) :
    (wait_for_token s now).1 < 60 := by
  have hmax0 : 0 < s.max_tokens := by linarith
  have hrate : 0 < s.max_tokens / 60 := by positivity
  by_cases hb : min s.max_tokens (s.tokens + (now - s.last_refill) * (s.max_tokens / 60)) < 1
  · rw [wait_for_token_block s now hb]
    simp only
    rw [div_lt_iff₀ hrate]
    have hprod : 0 ≤ (now - s.last_refill) * (s.max_tokens / 60) :=
      mul_nonneg (by linarith) (le_of_lt hrate)
    have hmin_lb : -1 ≤ min s.max_tokens (s.tokens + (now - s.last_refill) * (s.max_tokens / 60)) :=
      le_min (by linarith) (by linarith)
    have h60 : 60 * (s.max_tokens / 60) = s.max_tokens := by ring
    rw [h60]
    linarith
  · rw [wait_for_token_pass s now hb]
    norm_num

/-- Single-call agreement of the limiter with and without the
minute-boundary reset, in the `max_tokens > 2` regime. -/
theorem wait_if_needed_eq_noReset (s : LimiterState) (now : ℚ)
    (hmax : 2 < s.max_tokens) (htok : -1 ≤ s.tokens) (hlr : s.last_refill ≤ now) :
    wait_if_needed s now = wait_if_needed_noReset s now := by
  rw [wait_if_needed_eq_cases]
  rw [if_neg (not_le.mpr (waited_lt_60 s now hmax htok hlr))]
  simp only [wait_if_needed_noReset, wait_for_token_max]

/-- Sequence-level agreement of the limiter with and without the
minute-boundary reset, in the `max_tokens > 2` regime. -/
theorem runCalls_eq_noReset (ts : List ℚ) :
    ∀ s : LimiterState, 2 < s.max_tokens → -1 ≤ s.tokens → timesOk s.last_refill ts →
      runCalls s ts = runCallsNoReset s ts := by
  induction ts with
  | nil => intro s _ _ _; rfl
  | cons t ts ih =>
    intro s hmax htok hts
    obtain ⟨hle, hts'⟩ := hts
    have hone : wait_if_needed s t = wait_if_needed_noReset s t :=
      wait_if_needed_eq_noReset s t hmax htok hle
    have hrec : runCalls (wait_if_needed_noReset s t).2 ts
        = runCallsNoReset (wait_if_needed_noReset s t).2 ts := by
      apply ih
      · rw [wait_if_needed_noReset_max]; exact hmax
      · exact wait_if_needed_noReset_tokens_lb s t
      · rw [wait_if_needed_noReset_last_refill]; exact hts'
    simp only [runCalls, runCallsNoReset, hone, hrec]

/-- From a bucket holding `r ≤ max_tokens` tokens with `k ≤ r`, a burst of
`k` calls at one instant all pass without waiting and consume one token
each. -/
theorem runCalls_burst (k : ℕ) :
    ∀ (r M t0 : ℚ), (k : ℚ) ≤ r → r ≤ M →
      runCalls ⟨r, M, t0⟩ (List.replicate k t0)
        = (List.replicate k 0, ⟨r - (k : ℚ), M, t0⟩) := by
  induction k with
  | zero =>
    intro r M t0 _ _
    simp [runCalls]
  | succ k ih =>
    intro r M t0 hk hrM
    have h1 : (1 : ℚ) ≤ r := by
      have : ((k : ℚ) + 1) ≤ r := by push_cast at hk; linarith
      have hk0 : (0 : ℚ) ≤ (k : ℚ) := by positivity
      linarith
    have hmin : min M (r + (t0 - t0) * (M / 60)) = r := by
      rw [sub_self, zero_mul, add_zero]
      exact min_eq_right hrM
    have hpass : ¬ min M (r + (t0 - t0) * (M / 60)) < 1 := by
      rw [hmin]; linarith
    have hw : wait_if_needed ⟨r, M, t0⟩ t0 = (0, ⟨r - 1, M, t0⟩) := by
      rw [wait_if_needed_eq_cases]
      rw [wait_for_token_pass ⟨r, M, t0⟩ t0 hpass]
      simp only
      rw [if_neg (by norm_num)]
      rw [hmin]
    simp only [List.replicate_succ, runCalls, hw]
    have hrec := ih (r - 1) M t0 (by push_cast at hk ⊢; linarith) (by linarith)
    rw [hrec]
    refine Prod.ext rfl ?_
    show (⟨r - 1 - (k : ℚ), M, t0⟩ : LimiterState) = _
    congr 1
    push_cast
    ring

/-- `acquire_lock` grants exactly when the name is absent or the existing
entry is older than the timeout. -/
theorem acquire_lock_granted_iff (st : LockTable) (name : String) (timeout now : ℚ) :
    (acquire_lock st name timeout now).1 = true ↔
      st name = none ∨ ∃ t0, st name = some t0 ∧ now - t0 > timeout := by
  unfold acquire_lock
  cases h : st name with
  | none => simp [h]
  | some t0 =>
    by_cases hgt : now - t0 > timeout
    · simp [h, hgt]
    · simp [h, hgt]

/-- A denied `acquire_lock` leaves the lock table unchanged. -/
theorem acquire_lock_denied_eq (st : LockTable) (name : String) (timeout now : ℚ)
    (h : (acquire_lock st name timeout now).1 = false) :
    (acquire_lock st name timeout now).2 = st := by
  cases hst : st name with
  | none => simp [acquire_lock, hst] at h
  | some t0 =>
    by_cases hgt : now - t0 > timeout
    · simp [acquire_lock, hst, hgt] at h
    · simp [acquire_lock, hst, hgt]

/-- A granted `acquire_lock` installs a fresh entry stamped with the call
time. -/
theorem acquire_lock_granted_entry (st : LockTable) (name : String) (timeout now : ℚ)
    (h : (acquire_lock st name timeout now).1 = true) :
    (acquire_lock st name timeout now).2 name = some now := by
  cases hst : st name with
  | none => simp [acquire_lock, hst]
  | some t0 =>
    by_cases hgt : now - t0 > timeout
    · simp [acquire_lock, hst, hgt]
    · simp [acquire_lock, hst, hgt] at h

/-- While an entry stamped `t0` is held, every `acquire_lock` at a time
within `t0 + timeout` is denied (denials leave the entry in place, so the
whole sequence is denied). -/
theorem acquireSeq_all_denied (name : String) (timeout t0 : ℚ) :
    ∀ (ts : List ℚ) (st : LockTable), st name = some t0 →
      (∀ t ∈ ts, t - t0 ≤ timeout) →
      ∀ b ∈ (acquireSeq st name timeout ts).2, b = false := by
  intro ts
  induction ts with
  | nil => intro st _ _ b hb; simp [acquireSeq] at hb
  | cons t ts ih =>
    intro st hst hts b hb
    have hle : t - t0 ≤ timeout := hts t (by simp)
    have hacq : acquire_lock st name timeout t = (false, st) := by
      simp [acquire_lock, hst, not_lt.mpr hle]
    simp only [acquireSeq, hacq] at hb
    rcases List.mem_cons.mp hb with h | h
    · exact h
    · exact ih st hst (fun u hu => hts u (List.mem_cons_of_mem _ hu)) b h

/-- Final attempt, operation fails: the loop re-raises that exception. -/
theorem retryAux_last_error (cfg : RetryConfig) (op : ℕ → Except ε α)
    (rand : ℕ → ℚ) (a : ℕ) (e : ε) (h : op a = Except.error e) :
    retryAux cfg op rand a 1 = ⟨Except.error (some e), 1, []⟩ := by
  rw [retryAux, h]

/-- Non-final attempt, operation fails: the loop sleeps one `backoff_step`
and continues with the next attempt. -/
theorem retryAux_step_error (cfg : RetryConfig) (op : ℕ → Except ε α)
    (rand : ℕ → ℚ) (a m : ℕ) (e : ε) (h : op a = Except.error e) :
    retryAux cfg op rand a (m + 2) =
      ⟨(retryAux cfg op rand (a + 1) (m + 1)).result,
       (retryAux cfg op rand (a + 1) (m + 1)).calls + 1,
       backoff_step cfg a (rand a) :: (retryAux cfg op rand (a + 1) (m + 1)).sleeps⟩ := by
  rw [retryAux, h]

/-- With an always-failing operation, a run with `r ≥ 1` attempts ends with
the error of the last attempt and makes exactly `r` calls. -/
theorem retryAux_always_fail (cfg : RetryConfig) (op : ℕ → Except ε α)
    (rand : ℕ → ℚ) (f : ℕ → ε) (hop : ∀ k, op k = Except.error (f k)) :
    ∀ (r a : ℕ), 1 ≤ r →
      (retryAux cfg op rand a r).result = Except.error (some (f (a + r - 1)))
      ∧ (retryAux cfg op rand a r).calls = r := by
  intro r
  induction r with
  | zero => intro a h; exact absurd h (by norm_num)
  | succ n ih =>
    intro a _
    cases n with
    | zero =>
      rw [retryAux_last_error cfg op rand a (f a) (hop a)]
      exact ⟨by simp, rfl⟩
    | succ m =>
      have h := ih (a + 1) (by omega)
      have hidx : a + 1 + (m + 1) - 1 = a + (m + 1 + 1) - 1 := by omega
      rw [hidx] at h
      rw [retryAux_step_error cfg op rand a m (f a) (hop a)]
      exact ⟨h.1, by rw [show (retryAux cfg op rand (a + 1) (m + 1)).calls + 1
        = (m + 1) + 1 from by rw [h.2]]⟩

/-- The `i`-th sleep of a run whose first `i + 1` attempts fail is the
backoff computed at attempt `a + i`. -/
theorem retryAux_sleeps (cfg : RetryConfig) (op : ℕ → Except ε α) (rand : ℕ → ℚ)
    (f : ℕ → ε) :
    ∀ (i a r : ℕ), i + 2 ≤ r → (∀ j, a ≤ j → j ≤ a + i → op j = Except.error (f j)) →
      (retryAux cfg op rand a r).sleeps.get? i
        = some (backoff_step cfg (a + i) (rand (a + i))) := by
  intro i
  induction i with
  | zero =>
    intro a r hr hops
    obtain ⟨m, rfl⟩ : ∃ m, r = m + 2 := ⟨r - 2, by omega⟩
    have ha : op a = Except.error (f a) := hops a le_rfl (by omega)
    rw [retryAux_step_error cfg op rand a m (f a) ha]
    simp
  | succ i ih =>
    intro a r hr hops
    obtain ⟨m, rfl⟩ : ∃ m, r = m + 2 := ⟨r - 2, by omega⟩
    have ha : op a = Except.error (f a) := hops a le_rfl (by omega)
    have hrec := ih (a + 1) (m + 1) (by omega)
      (fun j hj1 hj2 => hops j (by omega) (by omega))
    have hidx : a + 1 + i = a + (i + 1) := by omega
    rw [hidx] at hrec
    rw [retryAux_step_error cfg op rand a m (f a) ha]
    simpa using hrec

/-- C1: for every sequence of `acquire_lock`/`release_lock` calls on one job
name, `acquire_lock` grants exactly when no entry exists for the name or the
existing entry's age strictly exceeds the timeout (the stale entry then
being replaced by a fresh one stamped with the call time); otherwise it
denies and leaves the lock table unchanged — hence after a grant, every
further acquire without an intervening release is denied as long as the
timeout has not elapsed. -/
theorem C1_acquire_lock_mutual_exclusion (st : LockTable) (name : String)
    (timeout now : ℚ) :
    ((acquire_lock st name timeout now).1 = true ↔
        st name = none ∨ ∃ t0, st name = some t0 ∧ now - t0 > timeout)
    ∧ ((acquire_lock st name timeout now).1 = true →
        (acquire_lock st name timeout now).2 name = some now)
    ∧ ((acquire_lock st name timeout now).1 = false →
        (acquire_lock st name timeout now).2 = st)
    ∧ (∀ ts : List ℚ, (acquire_lock st name timeout now).1 = true →
        (∀ t ∈ ts, t - now ≤ timeout) →
        ∀ b ∈ (acquireSeq (acquire_lock st name timeout now).2 name timeout ts).2,
          b = false) := by
  refine ⟨acquire_lock_granted_iff st name timeout now,
    acquire_lock_granted_entry st name timeout now,
    acquire_lock_denied_eq st name timeout now, ?_⟩
  intro ts hgr hts
  exact acquireSeq_all_denied name timeout now ts _
    (acquire_lock_granted_entry st name timeout now hgr) hts

/-- Witness for C1 at a concrete table, name and timestamps. -/
theorem C1_witness :
    ((acquire_lock (fun _ => none) "x" 10 0).1 = true)
    ∧ (acquire_lock (fun _ => none) "x" 10 0).2 "x" = some 0
    ∧ ∀ b ∈ (acquireSeq (acquire_lock (fun _ => none) "x" 10 0).2 "x" 10 [3, 7]).2,
        b = false := by
  have h := C1_acquire_lock_mutual_exclusion (fun _ => none) "x" 10 0
  refine ⟨h.1.mpr (Or.inl rfl), h.2.1 (h.1.mpr (Or.inl rfl)),
    h.2.2.2 [3, 7] (h.1.mpr (Or.inl rfl)) ?_⟩
  intro t ht
  fin_cases ht <;> norm_num

/-- C2, evaluation at the failing input: a limiter with `max_tokens = 2`
starting full, three immediate acquires — the first two pass, the third
blocks 30s and then leaves `tokens = -1 < 0`, breaching the claimed
invariant lower bound 0 (`wait_if_needed` decrements after
`_wait_for_token` has already zeroed the count post-sleep). -/
theorem C2_tokens_go_negative :
    (runCalls ⟨2, 2, 0⟩ [0, 0, 0]).1 = [0, 0, 30]
    ∧ (runCalls ⟨2, 2, 0⟩ [0, 0, 0]).2.tokens = -1
    ∧ ((-1 : ℚ) < 0) := by
  norm_num [runCalls, wait_if_needed, wait_for_token]

/-- C3: with an operation that fails on every attempt and
`max_retries ≥ 1`, the retry loop invokes the operation exactly
`max_retries` times and then raises the retries-exhausted outcome carrying
the final attempt's error (`raise last_exception`). -/
theorem C3_retries_exhausted (cfg : RetryConfig) (op : ℕ → Except ε α)
    (rand : ℕ → ℚ) (f : ℕ → ε) (hop : ∀ k, op k = Except.error (f k))
    (hmr : 1 ≤ cfg.max_retries) :
    (retry_with_backoff cfg op rand).result
        = Except.error (some (f cfg.max_retries))
    ∧ (retry_with_backoff cfg op rand).calls = cfg.max_retries := by
  have h := retryAux_always_fail cfg op rand f hop cfg.max_retries 1 hmr
  have hidx : 1 + cfg.max_retries - 1 = cfg.max_retries := by omega
  rw [hidx] at h
  unfold retry_with_backoff
  exact h

/-- Witness for C3 at `max_retries = 2` and a concrete failing operation. -/
theorem C3_witness :
    (retry_with_backoff ⟨2, 5, 60, 2, false⟩
        (fun k => (Except.error k : Except ℕ ℕ)) (fun _ => 0)).result
      = Except.error (some 2)
    ∧ (retry_with_backoff ⟨2, 5, 60, 2, false⟩
        (fun k => (Except.error k : Except ℕ ℕ)) (fun _ => 0)).calls = 2 :=
  C3_retries_exhausted ⟨2, 5, 60, 2, false⟩ _ _ (fun k => k) (fun _ => rfl)
    (by norm_num)

/-- C4: every acquire first refills the bucket to
`min(max_tokens, tokens + elapsed * max_tokens/60)` with `elapsed` measured
since `last_refill`, sets `last_refill` to now; if the refilled count is
below 1 it blocks for exactly `(1 - tokens)/(max_tokens/60)` and zeroes the
count after waiting, else it does not block and keeps the refilled count;
`wait_if_needed` reports exactly this blocking time. -/
theorem C4_wait_for_token_refill_and_block (s : LimiterState) (now : ℚ) :
    ((wait_for_token s now).2.last_refill = now)
    ∧ (min s.max_tokens (s.tokens + (now - s.last_refill) * (s.max_tokens / 60)) < 1 →
        (wait_for_token s now).1
            = (1 - min s.max_tokens
                (s.tokens + (now - s.last_refill) * (s.max_tokens / 60)))
              / (s.max_tokens / 60)
        ∧ (wait_for_token s now).2.tokens = 0)
    ∧ (1 ≤ min s.max_tokens (s.tokens + (now - s.last_refill) * (s.max_tokens / 60)) →
        (wait_for_token s now).1 = 0
        ∧ (wait_for_token s now).2.tokens
            = min s.max_tokens (s.tokens + (now - s.last_refill) * (s.max_tokens / 60)))
    ∧ ((wait_if_needed s now).1 = (wait_for_token s now).1) := by
  refine ⟨wait_for_token_last_refill s now, ?_, ?_, wait_if_needed_fst s now⟩
  · intro h
    rw [wait_for_token_block s now h]
    exact ⟨rfl, rfl⟩
  · intro h
    rw [wait_for_token_pass s now (not_lt.mpr h)]
    exact ⟨rfl, rfl⟩

/-- Witness for C4 on a depleted two-token bucket. -/
theorem C4_witness :
    (wait_for_token ⟨0, 2, 0⟩ 0).1
        = (1 - min (2:ℚ) (0 + (0 - 0) * (2 / 60))) / ((2:ℚ) / 60)
    ∧ (wait_for_token ⟨0, 2, 0⟩ 0).2.tokens = 0 :=
  (C4_wait_for_token_refill_and_block ⟨0, 2, 0⟩ 0).2.1 (by norm_num)

/-- C5: on a retryable failure at attempt `k < max_retries`, the sleep
before attempt `k + 1` is `min(initial_backoff * multiplier^(k-1),
max_backoff)` when jitter is off; with jitter on, the clamp is applied
first and the clamped value is scaled by `0.5 + random()`, a factor in
[0.5, 1.5) whenever the draw lies in [0, 1). -/
theorem C5_backoff_clamp_before_jitter (cfg : RetryConfig) (op : ℕ → Except ε α)
    (rand : ℕ → ℚ) (f : ℕ → ε) (k : ℕ)
    (hop : ∀ j, j ≤ k → op j = Except.error (f j))
    (hk1 : 1 ≤ k) (hk2 : k < cfg.max_retries) :
    ((retry_with_backoff cfg op rand).sleeps.get? (k - 1)
        = some (backoff_step cfg k (rand k)))
    ∧ (cfg.jitter = false →
        backoff_step cfg k (rand k)
          = min (cfg.initial_backoff * cfg.backoff_multiplier ^ (k - 1))
              cfg.max_backoff)
    ∧ (cfg.jitter = true →
        backoff_step cfg k (rand k)
          = min (cfg.initial_backoff * cfg.backoff_multiplier ^ (k - 1))
              cfg.max_backoff * (1 / 2 + rand k))
    ∧ (0 ≤ rand k → rand k < 1 →
        1 / 2 ≤ 1 / 2 + rand k ∧ 1 / 2 + rand k < 3 / 2) := by
  refine ⟨?_, ?_, ?_, ?_⟩
  · have h := retryAux_sleeps cfg op rand f (k - 1) 1 cfg.max_retries (by omega)
      (fun j hj1 hj2 => hop j (by omega))
    have hidx : 1 + (k - 1) = k := by omega
    rw [hidx] at h
    unfold retry_with_backoff
    exact h
  · intro hj
    simp [backoff_step, hj]
  · intro hj
    simp [backoff_step, hj]
  · intro h0 h1
    constructor <;> linarith

/-- Witness for C5 at attempt 1 of a jittered configuration with draw 1/4. -/
theorem C5_witness :
    (retry_with_backoff ⟨2, 5, 60, 2, true⟩
        (fun k => (Except.error k : Except ℕ ℕ)) (fun _ => 1 / 4)).sleeps.get? 0
      = some (min ((5:ℚ) * 2 ^ (1 - 1)) 60 * (1 / 2 + 1 / 4)) := by
  have h := C5_backoff_clamp_before_jitter ⟨2, 5, 60, 2, true⟩
    (fun k => (Except.error k : Except ℕ ℕ)) (fun _ => 1 / 4) (fun k => k) 1
    (fun j _ => rfl) le_rfl (by norm_num)
  rw [h.1, h.2.2.1 rfl]

/-- C6, counterexample: when the scheduled callable raises, the wrapper
catches and logs but writes no failed-run record — its `except` block only
calls `logger.error` — refuting the claim's "records it as a failed run"
at the wrapper boundary. -/
theorem C6_counterexample :
    ¬ ((@run_cve_agent String ℕ (Outcome.raised "boom")).wrote_failed_run_record
        = true) := by
  simp [run_cve_agent]

/-- C6, amended: an exception raised by the scheduled `run` callable is
caught by the wrapper, logged, the session is closed, and nothing
propagates to the dispatch loop (every job of a dispatched batch yields a
wrapper record with `propagated = false`); the failed-run record itself is
written one layer lower, by `CVECollectorAgent.run`, which catches
exceptions of its collection body, marks the run `failed` with the error
message, and returns normally. -/
theorem C6_failure_isolation :
    (∀ e : String,
        @run_cve_agent String ℕ (Outcome.raised e) = ⟨true, true, false, false⟩)
    ∧ (∀ r : Outcome String ℕ,
        (run_cve_agent r).propagated = false ∧ (run_cve_agent r).db_closed = true)
    ∧ (∀ e : String,
        (@CVECollectorAgent_run ℕ (Outcome.raised e)).1 = ⟨"failed", some e⟩)
    ∧ (∀ e : String,
        (@CVECollectorAgent_run ℕ (Outcome.raised e)).2 = Outcome.ok none)
    ∧ (∀ bodies : List (Outcome String ℕ),
        (dispatchAll bodies).length = bodies.length
        ∧ ∀ l ∈ dispatchAll bodies, l.propagated = false) := by
  refine ⟨fun e => rfl, fun r => ?_, fun e => rfl, fun e => rfl,
    fun bodies => ⟨by simp [dispatchAll], ?_⟩⟩
  · cases r <;> exact ⟨rfl, rfl⟩
  · intro l hl
    simp only [dispatchAll, List.mem_map] at hl
    obtain ⟨b, _, rfl⟩ := hl
    cases b <;> rfl

/-- Witness for C6 at concrete outcomes. -/
theorem C6_witness :
    @run_cve_agent String ℕ (Outcome.raised "boom") = ⟨true, true, false, false⟩
    ∧ (@run_cve_agent String ℕ (Outcome.ok 3)).propagated = false
    ∧ (@CVECollectorAgent_run ℕ (Outcome.raised "boom")).1 = ⟨"failed", some "boom"⟩ :=
  ⟨C6_failure_isolation.1 "boom", (C6_failure_isolation.2.1 (Outcome.ok 3)).1,
   C6_failure_isolation.2.2.1 "boom"⟩

/-- C7: `JobLockContext` raises the "job already running" error on entry
when acquisition is denied (lock table untouched), and whenever acquisition
succeeded it releases the lock on every exit path — the entry is gone both
on normal completion and when the body raises — and passes the body's
outcome through without suppressing its exception. -/
theorem C7_scoped_acquisition (st : LockTable) (name : String) (timeout now : ℚ)
    (body : Outcome ε α) :
    ((acquire_lock st name timeout now).1 = false →
        JobLockContext_run st name timeout now body = (st, CtxResult.alreadyRunning))
    ∧ ((acquire_lock st name timeout now).1 = true →
        (JobLockContext_run st name timeout now body).1 name = none
        ∧ (∀ a, body = Outcome.ok a →
            (JobLockContext_run st name timeout now body).2 = CtxResult.ok a)
        ∧ (∀ e, body = Outcome.raised e →
            (JobLockContext_run st name timeout now body).2
              = CtxResult.bodyRaised e)) := by
  constructor
  · intro h
    have hst := acquire_lock_denied_eq st name timeout now h
    cases body <;> simp [JobLockContext_run, h, hst]
  · intro h
    refine ⟨?_, ?_, ?_⟩
    · cases body <;> simp [JobLockContext_run, h, release_lock]
    · intro a hb
      subst hb
      simp [JobLockContext_run, h]
    · intro e hb
      subst hb
      simp [JobLockContext_run, h]

/-- Witness for C7: a granted run with a raising body, and a denied entry. -/
theorem C7_witness :
    (JobLockContext_run (fun _ => none) "x" 10 0
        (Outcome.raised "err" : Outcome String ℕ)).1 "x" = none
    ∧ (JobLockContext_run (fun _ => none) "x" 10 0
        (Outcome.raised "err" : Outcome String ℕ)).2 = CtxResult.bodyRaised "err"
    ∧ JobLockContext_run (fun n => if n = "x" then some 0 else none) "x" 10 5
        (Outcome.ok 1 : Outcome String ℕ)
        = ((fun n => if n = "x" then some 0 else none), CtxResult.alreadyRunning) := by
  have h1 := C7_scoped_acquisition (fun _ => none) "x" 10 0
    (Outcome.raised "err" : Outcome String ℕ)
  have h2 := C7_scoped_acquisition (fun n => if n = "x" then some 0 else none) "x" 10 5
    (Outcome.ok 1 : Outcome String ℕ)
  refine ⟨(h1.2 rfl).1, (h1.2 rfl).2.2 "err" rfl, h2.1 ?_⟩
  simp [acquire_lock]
  norm_num

/-- C8: a limiter with `max_tokens = N ≥ 1` and a full bucket serves `N`
immediate acquires without blocking, and the `(N+1)`-th immediate call
blocks with computed wait `60/N` seconds. -/
theorem C8_burst_then_block (N : ℕ) (t0 : ℚ) (hN : 1 ≤ N) :
    (runCalls ⟨(N : ℚ), (N : ℚ), t0⟩ (List.replicate N t0)).1 = List.replicate N 0
    ∧ (wait_if_needed (runCalls ⟨(N : ℚ), (N : ℚ), t0⟩ (List.replicate N t0)).2 t0).1
        = 60 / (N : ℚ) := by
  have hb := runCalls_burst N (N : ℚ) (N : ℚ) t0 le_rfl le_rfl
  rw [hb]
  have hN0 : (0 : ℚ) < (N : ℚ) := by exact_mod_cast hN
  constructor
  · rfl
  · have hsub : (N : ℚ) - (N : ℚ) = 0 := sub_self _
    rw [wait_if_needed_fst]
    have hmin : min (N : ℚ) (((N : ℚ) - (N : ℚ)) + (t0 - t0) * ((N : ℚ) / 60)) = 0 := by
      rw [hsub, sub_self, zero_mul, add_zero]
      exact min_eq_right (le_of_lt hN0)
    have hblock := wait_for_token_block ⟨(N : ℚ) - (N : ℚ), (N : ℚ), t0⟩ t0
      (by rw [hmin]; norm_num)
    rw [hblock]
    simp only
    rw [hmin]
    rw [sub_zero]
    rw [one_div_div]

/-- Witness for C8 at `N = 2`. -/
theorem C8_witness :
    (runCalls ⟨((2 : ℕ) : ℚ), ((2 : ℕ) : ℚ), 0⟩ (List.replicate 2 0)).1
        = List.replicate 2 0
    ∧ (wait_if_needed
        (runCalls ⟨((2 : ℕ) : ℚ), ((2 : ℕ) : ℚ), 0⟩ (List.replicate 2 0)).2 0).1
        = 60 / ((2 : ℕ) : ℚ) :=
  C8_burst_then_block 2 0 (by norm_num)

/-- C9, counterexample: with `max_tokens = 1`, full bucket, calls at
t = 0, 0, 60, the limiter with the minute-boundary reset waits 0s on the
third call while the reset-free one waits 60s (and the final states
differ) — dropping the reset does change observable behaviour. -/
theorem C9_counterexample :
    (runCalls ⟨1, 1, 0⟩ [0, 0, 60]).1 = [0, 60, 0]
    ∧ (runCallsNoReset ⟨1, 1, 0⟩ [0, 0, 60]).1 = [0, 60, 60]
    ∧ runCalls ⟨1, 1, 0⟩ [0, 0, 60] ≠ runCallsNoReset ⟨1, 1, 0⟩ [0, 0, 60] := by
  norm_num [runCalls, runCallsNoReset, wait_if_needed, wait_if_needed_noReset,
    wait_for_token]

/-- C9, amended: the minute-boundary reset is not redundant in general, but
whenever `max_tokens > 2` it can never fire — every computed wait is under
60s — so on any admissible call sequence the limiter agrees with the
reset-free one, waits and states alike; the spec's "may be dropped" holds
only in that regime. -/
theorem C9_reset_superfluous_when_max_gt_two (s : LimiterState) (ts : List ℚ)
    (hmax : 2 < s.max_tokens) (htok : -1 ≤ s.tokens)
    (hts : timesOk s.last_refill ts) :
    runCalls s ts = runCallsNoReset s ts :=
  runCalls_eq_noReset ts s hmax htok hts

/-- Witness for C9 (amended) on a three-token limiter. -/
theorem C9_witness :
    runCalls ⟨3, 3, 0⟩ [0, 1, 2] = runCallsNoReset ⟨3, 3, 0⟩ [0, 1, 2] :=
  C9_reset_superfluous_when_max_gt_two ⟨3, 3, 0⟩ [0, 1, 2] (by norm_num)
    (by norm_num) (by norm_num [timesOk])

/-- C10: passing a falsy numeric argument (`0`) to `retry_with_backoff` is
indistinguishable from omitting it — `or`-defaulting replaces it by the
`RETRY_CONFIG` default — so an explicit 0 never yields zero attempts or
zero backoff whenever the defaults are positive; only the jitter flag,
resolved with `is not None`, keeps an explicit `False` distinct from
unset. -/
theorem C10_falsy_args_take_defaults (d : RetryConfig) :
    (resolveRetryArgs ⟨some 0, some 0, some 0, some 0, some false⟩ d
        = ⟨d.max_retries, d.initial_backoff, d.max_backoff, d.backoff_multiplier,
           false⟩)
    ∧ (orDefaultNat (some 0) d.max_retries = orDefaultNat none d.max_retries)
    ∧ (orDefaultRat (some 0) d.initial_backoff = orDefaultRat none d.initial_backoff)
    ∧ (1 ≤ d.max_retries →
        1 ≤ (resolveRetryArgs ⟨some 0, none, none, none, none⟩ d).max_retries)
    ∧ (0 < d.initial_backoff →
        0 < (resolveRetryArgs ⟨none, some 0, none, none, none⟩ d).initial_backoff)
    ∧ (jitterDefault (some false) true = false ∧ jitterDefault none true = true) := by
  refine ⟨rfl, rfl, rfl, ?_, ?_, rfl, rfl⟩
  · intro h
    simpa [resolveRetryArgs, orDefaultNat] using h
  · intro h
    simpa [resolveRetryArgs, orDefaultRat] using h

/-- Witness for C10 at concrete defaults. -/
theorem C10_witness :
    (resolveRetryArgs ⟨some 0, some 0, some 0, some 0, some false⟩ ⟨3, 5, 60, 2, true⟩
        = ⟨3, 5, 60, 2, false⟩)
    ∧ 1 ≤ (resolveRetryArgs ⟨some 0, none, none, none, none⟩
        (⟨3, 5, 60, 2, true⟩ : RetryConfig)).max_retries
    ∧ 0 < (resolveRetryArgs ⟨none, some 0, none, none, none⟩
        (⟨3, 5, 60, 2, true⟩ : RetryConfig)).initial_backoff := by
  have h := C10_falsy_args_take_defaults ⟨3, 5, 60, 2, true⟩
  exact ⟨h.1, h.2.2.2.1 (by norm_num), h.2.2.2.2.1 (by norm_num)⟩
